import Mathlib

/-!
Verification development for the `find_river_map` repository.

The repository's core logic (shared by `src/app.py` `generate_country_map` /
`plot_stylish_map` and by the script `src/rivers.py`) consists of three
pure procedures:

* country resolution: exact case-insensitive match of the whitespace-stripped
  query against the `SOVEREIGNT` column excluding `TYPE == "Dependency"`,
  falling back to a substring match, and failing when both are empty;
* mainland extraction: reproject the selection to EPSG:3857, flatten
  `MultiPolygon`/`GeometryCollection` geometries into parts (skipping null
  geometries), pick the part of maximum planar area (`np.argmax`: first index
  attaining the maximum), reproject it back to the original CRS; when no
  parts exist, fall back to the union of the original selection;
* river classification: per-feature metric from the `UPLAND_SKM` column
  (nulls as 0) when the column exists, else geometry length; divide by the
  maximum when that maximum is positive; bucket with
  `pd.cut(bins=[-1, 0.33, 0.66, 1.0], labels=[small, medium, large])`
  (right-closed intervals, out-of-range values get no label).

Geometries are modelled shallowly: a polygon carries its planar area in the
current CRS (plus a tag distinguishing geometries of equal area), multi-part
geometries carry their member list, and CRS transformations and the geometric
union are abstract function parameters, since they are supplied by external
libraries (pyproj / shapely), not by this repository.
-/

namespace RiverMap

/-- Shallow model of a shapely geometry.  A polygon records its planar area
in the CRS it currently lives in, together with an identifying tag; a
linestring records its length; multi-part geometries record their members. -/
inductive Geom where
  | polygon (area : ℚ) (tag : Nat)
  | lineString (len : ℚ) (tag : Nat)
  | multiPolygon (parts : List Geom)
  | geometryCollection (parts : List Geom)

/-- `geom.geom_type` of shapely. -/
def Geom.geomType : Geom → String
  | .polygon _ _ => "Polygon"
  | .lineString _ _ => "LineString"
  | .multiPolygon _ => "MultiPolygon"
  | .geometryCollection _ => "GeometryCollection"

/-- `geom.geoms` of shapely, member access for multi-part geometries.  The
source only reads it after checking `geom_type` is `MultiPolygon` or
`GeometryCollection`, so the value on single geometries is irrelevant. -/
def Geom.geoms : Geom → List Geom
  | .multiPolygon ps => ps
  | .geometryCollection ps => ps
  | _ => []

mutual

/-- `geom.area` of shapely: planar area in the current CRS; linear geometries
have area 0, multi-part geometries sum their members. -/
def Geom.area : Geom → ℚ
  | .polygon a _ => a
  | .lineString _ _ => 0
  | .multiPolygon ps => Geom.areaSum ps
  | .geometryCollection ps => Geom.areaSum ps

/-- Total area of a list of geometries. -/
def Geom.areaSum : List Geom → ℚ
  | [] => 0
  | g :: gs => Geom.area g + Geom.areaSum gs

end

/-- One-level flattening of a single geometry, from the loop body in
`src/app.py` lines 260-267 / `src/rivers.py` lines 76-83: multi-part
geometries contribute their members, anything else contributes itself. -/
def geomParts (g : Geom) : List Geom :=
  if g.geomType == "MultiPolygon" || g.geomType == "GeometryCollection" then
    g.geoms
  else
    [g]

/-- The `parts` list built by the source loop: null geometries are skipped,
every other geometry contributes `geomParts`. -/
def collectParts : List (Option Geom) → List Geom
  | [] => []
  | none :: rest => collectParts rest
  | some g :: rest => geomParts g ++ collectParts rest

/-- `np.argmax` on a list: the first index attaining the maximum value
(0 on the empty list, where the source never calls it). -/
def argmaxIdx : List ℚ → Nat
  | [] => 0
  | x :: xs =>
    match xs with
    | [] => 0
    | _ :: _ =>
      if x < xs.getD (argmaxIdx xs) 0 then argmaxIdx xs + 1 else 0

/-- One row of the Natural Earth countries dataset, restricted to the columns
the source reads: `SOVEREIGNT`, `TYPE` and the geometry (possibly null). -/
structure CountryFeature where
  sovereignt : String
  type_ : String
  geometry : Option Geom

/-- A GeoDataFrame of country features: a CRS identifier plus rows. -/
structure CountryFrame where
  crs : Nat
  features : List CountryFeature

/-- The two values the mainland-extraction block produces: `mainland_mask`
(a geometry) and `mainland_gdf` (a GeoDataFrame, kept as its CRS and its
geometry column). -/
structure MainlandOut where
  mask : Geom
  gdfCrs : Nat
  gdfGeoms : List (Option Geom)

/-- The geometry column of the selection. -/
def selGeometries (sel : CountryFrame) : List (Option Geom) :=
  sel.features.map (fun f => f.geometry)

/-- `selected_country.to_crs(epsg=3857)`: the geometry column after the
forward reprojection, where `reproj src dst` is the abstract library
transformation from CRS `src` to CRS `dst` (null geometries stay null). -/
def reprojGeoms (reproj : Nat → Nat → Geom → Geom) (sel : CountryFrame) :
    List (Option Geom) :=
  (selGeometries sel).map (Option.map (reproj sel.crs 3857))

/-- The `parts` list of the source, computed on the reprojected selection. -/
def mainlandParts (reproj : Nat → Nat → Geom → Geom) (sel : CountryFrame) :
    List Geom :=
  collectParts (reprojGeoms reproj sel)

/-- `int(np.argmax(areas))` of the source: the first index of `parts`
attaining the maximum planar area. -/
def largestPartIdx (reproj : Nat → Nat → Geom → Geom) (sel : CountryFrame) :
    Nat :=
  argmaxIdx ((mainlandParts reproj sel).map Geom.area)

/-- `parts[largest_idx]` of the source (the default value is irrelevant:
the index is always in range when parts exist). -/
def largestPart (reproj : Nat → Nat → Geom → Geom) (sel : CountryFrame) :
    Geom :=
  (mainlandParts reproj sel).getD (largestPartIdx reproj sel) (Geom.polygon 0 0)

/-- Mainland extraction, from `src/app.py` lines 258-278 / `src/rivers.py`
lines 74-98.  `reproj` abstracts `to_crs` and `unaryUnion` abstracts
`GeoSeries.unary_union`; both are external library capabilities.  When no
parts exist the source falls back to the union of the original selection as
the mask and to the original selection as the mainland GeoDataFrame;
otherwise it reprojects the largest part back to the selection's CRS. -/
def extract_mainland (reproj : Nat → Nat → Geom → Geom)
    (unaryUnion : List (Option Geom) → Geom) (sel : CountryFrame) :
    MainlandOut :=
  if (mainlandParts reproj sel).length = 0 then
    { mask := unaryUnion (selGeometries sel)
      gdfCrs := sel.crs
      gdfGeoms := selGeometries sel }
  else
    { mask := reproj 3857 sel.crs (largestPart reproj sel)
      gdfCrs := sel.crs
      gdfGeoms := [some (reproj 3857 sel.crs (largestPart reproj sel))] }

/-- A geometry whose type is `Polygon`. -/
def isPolygonG (g : Geom) : Bool :=
  g.geomType == "Polygon"

/-- A possibly-null geometry that is present and a polygon. -/
def optIsPolygon : Option Geom → Bool
  | none => false
  | some g => isPolygonG g

/-- A geometry admissible for a country feature: a polygon, or a
multi-polygon all of whose members are polygons. -/
def polygonalCountryGeom : Geom → Bool
  | .polygon _ _ => true
  | .multiPolygon ps => ps.all isPolygonG
  | _ => false

/-- A possibly-null geometry that is either null or polygonal. -/
def optPolygonal : Option Geom → Bool
  | none => true
  | some g => polygonalCountryGeom g

/-- A possibly-null geometry that is null or empty, hence contributes no
parts: null, an empty multi-polygon, or an empty geometry collection. -/
def yieldsNoParts : Option Geom → Bool
  | none => true
  | some (.multiPolygon []) => true
  | some (.geometryCollection []) => true
  | some _ => false

/-- Python `str.lower()` on the strings the source compares (model: lower
every character). -/
def pyLower (s : String) : String :=
  ⟨s.data.map Char.toLower⟩

/-- Python `str.strip()`: drop whitespace from both ends. -/
def pyStrip (s : String) : String :=
  ⟨((s.data.dropWhile Char.isWhitespace).reverse.dropWhile Char.isWhitespace).reverse⟩

/-- Does `hay` start with `needle` (on character lists)? -/
def charsStartsWith : List Char → List Char → Bool
  | _, [] => true
  | [], _ :: _ => false
  | a :: as, b :: bs => a == b && charsStartsWith as bs

/-- Does `hay` contain `needle` as a contiguous run (on character lists)? -/
def charsContains : List Char → List Char → Bool
  | [], needle => charsStartsWith [] needle
  | a :: as, needle => charsStartsWith (a :: as) needle || charsContains as needle

/-- Substring containment, modelling pandas `Series.str.contains` on the
plain (metacharacter-free) country-name queries the source feeds it. -/
def strContains (hay needle : String) : Bool :=
  charsContains hay.data needle.data

/-- Resolution failure: the source raises
`ValueError("Country ... not found. Try a different name.")`, carrying the
query; the spec calls this `NotFoundError(query)`. -/
inductive ResolveError where
  | notFound (query : String)
deriving DecidableEq

/-- The exact-match step of country resolution (`src/app.py` lines 246-249):
`SOVEREIGNT` lowercased equals the lowercased stripped query, and `TYPE` is
not `"Dependency"`. -/
def exactMatches (countries : List CountryFeature) (query : String) :
    List CountryFeature :=
  countries.filter fun f =>
    (pyLower f.sovereignt == pyLower (pyStrip query)) && !(f.type_ == "Dependency")

/-- The substring-match step (`src/app.py` lines 251-253): `SOVEREIGNT`
lowercased contains the lowercased stripped query, and `TYPE` is not
`"Dependency"`. -/
def subMatches (countries : List CountryFeature) (query : String) :
    List CountryFeature :=
  countries.filter fun f =>
    strContains (pyLower f.sovereignt) (pyLower (pyStrip query))
      && !(f.type_ == "Dependency")

/-- Country resolution, from `src/app.py` lines 244-256 / `src/rivers.py`
lines 56-70: exact match first, then substring match, else failure. -/
def resolve (countries : List CountryFeature) (query : String) :
    Except ResolveError (List CountryFeature) :=
  if (exactMatches countries query).isEmpty then
    if (subMatches countries query).isEmpty then
      .error (.notFound query)
    else
      .ok (subMatches countries query)
  else
    .ok (exactMatches countries query)

/-- The three river size categories (`labels=["small", "medium", "large"]`,
stored as the `_size_cat` column). -/
inductive SizeCat where
  | small
  | medium
  | large
deriving DecidableEq

/-- `pd.cut(x, bins=[-1, 0.33, 0.66, 1.0], labels=["small","medium","large"])`
for one value: right-closed intervals, values outside `(-1, 1]` get no
category (pandas `NaN`). -/
def pdCut (x : ℚ) : Option SizeCat :=
  if -1 < x ∧ x ≤ 33/100 then some .small
  else if 33/100 < x ∧ x ≤ 66/100 then some .medium
  else if 66/100 < x ∧ x ≤ 1 then some .large
  else none

/-- One row of the (already mask-restricted, already reprojected) rivers
dataset, restricted to what classification reads: the `UPLAND_SKM` value
(null allowed) and the planar geometry length in the current CRS. -/
structure RiverFeature where
  uplandSkm : Option ℚ
  geomLength : ℚ
deriving DecidableEq

/-- A rivers GeoDataFrame: whether the schema has the `UPLAND_SKM` column,
plus the rows. -/
structure RiverFrame where
  hasUplandCol : Bool
  features : List RiverFeature
deriving DecidableEq

/-- The per-feature size metric (`src/app.py` lines 146-149): the
`UPLAND_SKM` value with nulls filled by 0 when the column exists, else the
geometry length. -/
def riverMetric (hasCol : Bool) (f : RiverFeature) : ℚ :=
  if hasCol then f.uplandSkm.getD 0 else f.geomLength

/-- The metric series of a rivers frame. -/
def dsMetrics (ds : RiverFrame) : List ℚ :=
  ds.features.map (riverMetric ds.hasUplandCol)

/-- Pandas `Series.max`: none on the empty series (`NaN`), else the maximum. -/
def seriesMax : List ℚ → Option ℚ
  | [] => none
  | x :: xs => some (xs.foldl max x)

/-- The source's guard `metric.max() > 0` (false on the empty series, since
`NaN > 0` is false). -/
def maxIsPos (xs : List ℚ) : Bool :=
  match seriesMax xs with
  | none => false
  | some m => decide (0 < m)

/-- Normalization and bucketing (`src/app.py` lines 151-158): divide by the
maximum when it is positive, else keep raw values; cut into categories; pair
each feature with its category (the `assign(_size_cat=cats)` step). -/
def classifyWith (metrics : List ℚ) (feats : List RiverFeature) :
    List (RiverFeature × Option SizeCat) :=
  let rel :=
    if maxIsPos metrics then
      metrics.map (fun x => x / (seriesMax metrics).getD 0)
    else
      metrics
  feats.zip (rel.map pdCut)

/-- River classification: metric selection followed by normalization and
bucketing, from `src/app.py` lines 146-158 / `src/rivers.py` lines 140-153. -/
def classify (ds : RiverFrame) : List (RiverFeature × Option SizeCat) :=
  classifyWith (dsMetrics ds) ds.features

/-! Concrete instantiations used to exercise the theorems below. -/

/-- The identity CRS transformation, an admissible instance of the abstract
`to_crs` parameter. -/
def idReproj : Nat → Nat → Geom → Geom := fun _ _ g => g

/-- A concrete stand-in for `unary_union`: collect the non-null geometries. -/
def collectionUnion : List (Option Geom) → Geom := fun gs =>
  Geom.geometryCollection (gs.filterMap id)

/-- A two-feature selection whose parts (a stand-alone polygon of area 5 and
a multi-polygon with members of areas 9 and 9) exercise flattening and the
first-of-ties maximum. -/
def tieFrame : CountryFrame :=
  ⟨4326, [⟨"Italy", "Sovereign country", some (.polygon 5 1)⟩,
          ⟨"Italy", "Sovereign country",
            some (.multiPolygon [.polygon 9 2, .polygon 9 3])⟩]⟩

/-- A non-empty selection whose geometries are all empty multi-polygons, so
that flattening yields no parts. -/
def allEmptyPairFrame : CountryFrame :=
  ⟨4326, [⟨"A", "Sovereign country", some (.multiPolygon [])⟩,
          ⟨"B", "Sovereign country", some (.multiPolygon [])⟩]⟩

/-- A selection mixing a polygon feature with a multi-polygon feature. -/
def polyPairFrame : CountryFrame :=
  ⟨4326, [⟨"A", "Sovereign country", some (.polygon 5 1)⟩,
          ⟨"B", "Sovereign country",
            some (.multiPolygon [.polygon 2 2, .polygon 7 3])⟩]⟩

/-- A selection whose geometries are null, an empty multi-polygon and an
empty geometry collection. -/
def allNullFrame : CountryFrame :=
  ⟨4326, [⟨"X", "Sovereign country", none⟩,
          ⟨"Y", "Sovereign country", some (.multiPolygon [])⟩,
          ⟨"Z", "Sovereign country", some (.geometryCollection [])⟩]⟩

/-- A selection mixing a null geometry with a polygon geometry. -/
def mixedNullFrame : CountryFrame :=
  ⟨4326, [⟨"A", "Sovereign country", none⟩,
          ⟨"B", "Sovereign country", some (.polygon 4 7)⟩]⟩

/-- A countries dataset with a sovereign record and a dependency sharing the
same sovereignty name. -/
def franceCountries : List CountryFeature :=
  [⟨"France", "Sovereign country", some (.polygon 1 0)⟩,
   ⟨"France", "Dependency", some (.polygon 2 1)⟩]

/-- A countries dataset whose only record is a dependency with a non-empty
sovereignty name. -/
def onlyDependencyCountries : List CountryFeature :=
  [⟨"Greenland", "Dependency", some (.polygon 1 0)⟩]

/-- A countries dataset with one sovereign record and one dependency, all
names non-empty. -/
def mixedCountries : List CountryFeature :=
  [⟨"France", "Sovereign country", none⟩,
   ⟨"Greenland", "Dependency", none⟩]

/-- The three-river dataset of the spec's concrete scenario: upstream areas
10, 500 and 1000. -/
def demoRivers : RiverFrame :=
  ⟨true, [⟨some 10, 0⟩, ⟨some 500, 0⟩, ⟨some 1000, 0⟩]⟩

/-- A rivers dataset whose single feature has the negative metric −5. -/
def negRivers : RiverFrame :=
  ⟨true, [⟨some (-5), 0⟩]⟩

/-- A rivers dataset where every feature has metric 0 (one via an explicit 0,
one via a null filled with 0). -/
def zeroRivers : RiverFrame :=
  ⟨true, [⟨some 0, 0⟩, ⟨none, 5⟩]⟩

/-- A rivers dataset carrying the `UPLAND_SKM` column. -/
def uplandRivers : RiverFrame :=
  ⟨true, [⟨some 100, 3⟩, ⟨none, 4⟩]⟩

/-! Helper lemmas. -/

theorem geomParts_polygon (a : ℚ) (t : Nat) :
    geomParts (.polygon a t) = [.polygon a t] := rfl

theorem geomParts_lineString (l : ℚ) (t : Nat) :
    geomParts (.lineString l t) = [.lineString l t] := rfl

theorem geomParts_multiPolygon (ps : List Geom) :
    geomParts (.multiPolygon ps) = ps := rfl

theorem geomParts_geometryCollection (ps : List Geom) :
    geomParts (.geometryCollection ps) = ps := rfl

theorem argmaxIdx_singleton (x : ℚ) : argmaxIdx [x] = 0 := rfl

theorem argmaxIdx_cons_cons (x y : ℚ) (ys : List ℚ) :
    argmaxIdx (x :: y :: ys) =
      if x < (y :: ys).getD (argmaxIdx (y :: ys)) 0 then
        argmaxIdx (y :: ys) + 1
      else 0 := rfl

theorem argmaxIdx_lt_length : ∀ (xs : List ℚ), xs ≠ [] → argmaxIdx xs < xs.length
  | [_], _ => Nat.one_pos
  | x :: y :: ys, _ => by
    have ih := argmaxIdx_lt_length (y :: ys) (by simp)
    rw [argmaxIdx_cons_cons]
    by_cases hx : x < (y :: ys).getD (argmaxIdx (y :: ys)) 0
    · rw [if_pos hx]
      simpa using Nat.succ_lt_succ ih
    · rw [if_neg hx]
      simp

theorem getD_le_argmax :
    ∀ (xs : List ℚ) (i : Nat), i < xs.length →
      xs.getD i 0 ≤ xs.getD (argmaxIdx xs) 0
  | [_], 0, _ => le_refl _
  | [_], _ + 1, h => absurd h (by simp)
  | x :: y :: ys, i, h => by
    rw [argmaxIdx_cons_cons]
    by_cases hx : x < (y :: ys).getD (argmaxIdx (y :: ys)) 0
    · rw [if_pos hx]
      cases i with
      | zero => simpa [List.getD_cons_zero, List.getD_cons_succ] using le_of_lt hx
      | succ k =>
        have hk : k < (y :: ys).length := by simpa using h
        simpa [List.getD_cons_succ] using getD_le_argmax (y :: ys) k hk
    · rw [if_neg hx]
      push_neg at hx
      cases i with
      | zero => simp [List.getD_cons_zero]
      | succ k =>
        have hk : k < (y :: ys).length := by simpa using h
        calc (x :: y :: ys).getD (k + 1) 0
            = (y :: ys).getD k 0 := List.getD_cons_succ
          _ ≤ (y :: ys).getD (argmaxIdx (y :: ys)) 0 := getD_le_argmax (y :: ys) k hk
          _ ≤ x := hx
          _ = (x :: y :: ys).getD 0 0 := List.getD_cons_zero.symm

theorem getD_lt_of_lt_argmax :
    ∀ (xs : List ℚ) (i : Nat), i < argmaxIdx xs →
      xs.getD i 0 < xs.getD (argmaxIdx xs) 0
  | [], i, h => absurd h (by simp [argmaxIdx])
  | [x], i, h => absurd h (by simp [argmaxIdx_singleton])
  | x :: y :: ys, i, h => by
    rw [argmaxIdx_cons_cons] at h ⊢
    by_cases hx : x < (y :: ys).getD (argmaxIdx (y :: ys)) 0
    · rw [if_pos hx] at h ⊢
      cases i with
      | zero => simpa [List.getD_cons_zero, List.getD_cons_succ] using hx
      | succ k =>
        have hk : k < argmaxIdx (y :: ys) := by omega
        simpa [List.getD_cons_succ] using getD_lt_of_lt_argmax (y :: ys) k hk
    · rw [if_neg hx] at h
      exact absurd h (by omega)

theorem getD_map_area :
    ∀ (ps : List Geom) (i : Nat), i < ps.length →
      (ps.map Geom.area).getD i 0 = (ps.getD i (Geom.polygon 0 0)).area
  | g :: gs, 0, _ => rfl
  | g :: gs, k + 1, h => getD_map_area gs k (by simpa using h)

theorem getD_mem {α : Type} (l : List α) (i : Nat) (d : α) (h : i < l.length) :
    l.getD i d ∈ l := by
  rw [List.getD_eq_getElem l d h]
  exact List.getElem_mem h

theorem collectParts_filter_isSome :
    ∀ (gs : List (Option Geom)),
      collectParts (gs.filter fun og => og.isSome) = collectParts gs
  | [] => rfl
  | none :: rest => by
    simpa [List.filter, collectParts] using collectParts_filter_isSome rest
  | some g :: rest => by
    simpa [List.filter, collectParts] using collectParts_filter_isSome rest

theorem collectParts_eq_nil_iff :
    ∀ (gs : List (Option Geom)),
      collectParts gs = [] ↔ ∀ og ∈ gs, ∀ g, og = some g → geomParts g = []
  | [] => by simp [collectParts]
  | none :: rest => by
    simp only [collectParts, collectParts_eq_nil_iff rest]
    constructor
    · intro h og hog g hg
      rcases List.mem_cons.mp hog with rfl | hog
      · exact absurd hg (by simp)
      · exact h og hog g hg
    · intro h og hog g hg
      exact h og (List.mem_cons_of_mem _ hog) g hg
  | some g₀ :: rest => by
    simp only [collectParts, List.append_eq_nil, collectParts_eq_nil_iff rest]
    constructor
    · rintro ⟨h0, h⟩ og hog g hg
      rcases List.mem_cons.mp hog with rfl | hog
      · cases hg; exact h0
      · exact h og hog g hg
    · intro h
      exact ⟨h (some g₀) (List.mem_cons_self _ _) g₀ rfl,
        fun og hog g hg => h og (List.mem_cons_of_mem _ hog) g hg⟩

theorem mem_collectParts :
    ∀ (gs : List (Option Geom)) (p : Geom), p ∈ collectParts gs →
      ∃ g, some g ∈ gs ∧ p ∈ geomParts g
  | none :: rest, p, hp => by
    obtain ⟨g, hg, hpg⟩ := mem_collectParts rest p hp
    exact ⟨g, List.mem_cons_of_mem _ hg, hpg⟩
  | some g₀ :: rest, p, hp => by
    rcases List.mem_append.mp hp with h | h
    · exact ⟨g₀, List.mem_cons_self _ _, h⟩
    · obtain ⟨g, hg, hpg⟩ := mem_collectParts rest p h
      exact ⟨g, List.mem_cons_of_mem _ hg, hpg⟩

theorem le_foldl_max : ∀ (xs : List ℚ) (a : ℚ), a ≤ xs.foldl max a
  | [], a => le_refl a
  | x :: xs, a => le_trans (le_max_left a x) (le_foldl_max xs (max a x))

theorem mem_le_foldl_max :
    ∀ (xs : List ℚ) (a x : ℚ), x ∈ xs → x ≤ xs.foldl max a
  | y :: ys, a, x, hx => by
    rcases List.mem_cons.mp hx with rfl | hx
    · exact le_trans (le_max_right a x) (le_foldl_max ys (max a x))
    · exact mem_le_foldl_max ys (max a y) x hx

theorem seriesMax_le (xs : List ℚ) (m x : ℚ) (hm : seriesMax xs = some m)
    (hx : x ∈ xs) : x ≤ m := by
  cases xs with
  | nil => cases hx
  | cons y ys =>
    have hm' : ys.foldl max y = m := by
      simpa [seriesMax] using hm
    rcases List.mem_cons.mp hx with rfl | hx
    · exact hm' ▸ le_foldl_max ys x
    · exact hm' ▸ mem_le_foldl_max ys y x hx

theorem charsStartsWith_nil (hay : List Char) : charsStartsWith hay [] = true := by
  cases hay <;> rfl

theorem charsContains_nil : ∀ (hay : List Char), charsContains hay [] = true
  | [] => rfl
  | _ :: _ => by simp [charsContains, charsStartsWith_nil]

theorem strContains_empty (s : String) : strContains s "" = true :=
  charsContains_nil s.data

theorem pyLower_ne_empty (s : String) (h : s ≠ "") : pyLower s ≠ "" := by
  intro hcon
  apply h
  have hdata : s.data.map Char.toLower = [] := congrArg String.data hcon
  have : s.data = [] := List.map_eq_nil_iff.mp hdata
  cases s
  simp_all

theorem mem_exactMatches_not_dep (countries : List CountryFeature)
    (q : String) (f : CountryFeature) (hf : f ∈ exactMatches countries q) :
    f.type_ ≠ "Dependency" := by
  have h := (List.mem_filter.mp hf).2
  simp only [Bool.and_eq_true, Bool.not_eq_true', beq_eq_false_iff_ne] at h
  exact h.2

theorem mem_subMatches_not_dep (countries : List CountryFeature)
    (q : String) (f : CountryFeature) (hf : f ∈ subMatches countries q) :
    f.type_ ≠ "Dependency" := by
  have h := (List.mem_filter.mp hf).2
  simp only [Bool.and_eq_true, Bool.not_eq_true', beq_eq_false_iff_ne] at h
  exact h.2

/-! Claim theorems. -/

/-- C2: `resolve` first filters to features whose sovereignty name
case-insensitively equals the whitespace-trimmed query and whose type is not
"Dependency"; only if that set is empty does it filter to non-dependency
features whose sovereignty name contains the trimmed query as a substring;
and it fails with `NotFoundError` exactly when both sets are empty, so a
resolved result never contains a dependency-typed feature. -/
theorem C2_resolution (countries : List CountryFeature) (query : String) :
    (resolve countries query = .error (.notFound query) ↔
      exactMatches countries query = [] ∧ subMatches countries query = []) ∧
    (exactMatches countries query ≠ [] →
      resolve countries query = .ok (exactMatches countries query)) ∧
    (exactMatches countries query = [] → subMatches countries query ≠ [] →
      resolve countries query = .ok (subMatches countries query)) ∧
    (∀ res, resolve countries query = .ok res →
      ∀ f ∈ res, f.type_ ≠ "Dependency") := by
  by_cases hex : exactMatches countries query = []
  · by_cases hsub : subMatches countries query = []
    · have hr : resolve countries query = .error (.notFound query) := by
        unfold resolve
        rw [if_pos (by simp [List.isEmpty_iff, hex]),
          if_pos (by simp [List.isEmpty_iff, hsub])]
      refine ⟨by simp [hr, hex, hsub], fun h => absurd hex h,
        fun _ h => absurd hsub h, ?_⟩
      intro res hres
      rw [hr] at hres
      cases hres
    · have hr : resolve countries query = .ok (subMatches countries query) := by
        unfold resolve
        rw [if_pos (by simp [List.isEmpty_iff, hex]),
          if_neg (by simp [List.isEmpty_iff, hsub])]
      refine ⟨by simp [hr, hsub], fun h => absurd hex h, fun _ _ => hr, ?_⟩
      intro res hres f hf
      rw [hr] at hres
      injection hres with h
      subst h
      exact mem_subMatches_not_dep countries query f hf
  · have hr : resolve countries query = .ok (exactMatches countries query) := by
      unfold resolve
      rw [if_neg (by simp [List.isEmpty_iff, hex])]
    refine ⟨by simp [hr, hex], fun _ => hr, fun h _ => absurd h hex, ?_⟩
    intro res hres f hf
    rw [hr] at hres
    injection hres with h
    subst h
    exact mem_exactMatches_not_dep countries query f hf

/-- Witness for C2 at a concrete dataset: the query `" FRANCE "` resolves
through the exact-match step, and the dependency record sharing the name is
excluded. -/
theorem C2_witness :
    exactMatches franceCountries " FRANCE " ≠ [] ∧
    resolve franceCountries " FRANCE " =
      .ok (exactMatches franceCountries " FRANCE ") ∧
    (∀ f ∈ exactMatches franceCountries " FRANCE ", f.type_ ≠ "Dependency") := by
  have hc := C2_resolution franceCountries " FRANCE "
  have hval : exactMatches franceCountries " FRANCE " =
      [⟨"France", "Sovereign country", some (.polygon 1 0)⟩] := rfl
  have hne : exactMatches franceCountries " FRANCE " ≠ [] := by
    rw [hval]
    exact List.cons_ne_nil _ _
  exact ⟨hne, hc.2.1 hne,
    fun f hf => hc.2.2.2 (exactMatches franceCountries " FRANCE ")
      (hc.2.1 hne) f hf⟩

/-- C9 (amended): a query that is empty or whitespace-only does not fail when
the dataset has non-empty sovereignty names AND at least one non-dependency
feature; in that case the exact step yields nothing, the substring step
matches every feature, and `resolve` returns all non-dependency features.
(The unamended claim is refuted by `C9_counterexample`: when every feature is
a dependency the substring set is also empty and `resolve` does fail.) -/
theorem C9_whitespace_query (countries : List CountryFeature) (query : String)
    (hq : pyStrip query = "")
    (hname : ∀ f ∈ countries, f.sovereignt ≠ "")
    (hnondep : ∃ f ∈ countries, f.type_ ≠ "Dependency") :
    exactMatches countries query = [] ∧
    resolve countries query =
      .ok (countries.filter fun f => !(f.type_ == "Dependency")) := by
  have hex : exactMatches countries query = [] := by
    rw [exactMatches]
    apply List.filter_eq_nil_iff.mpr
    intro f hf
    rw [hq]
    intro hcond
    simp only [Bool.and_eq_true, beq_iff_eq] at hcond
    exact pyLower_ne_empty f.sovereignt (hname f hf) hcond.1
  have hsubEq : subMatches countries query =
      countries.filter fun f => !(f.type_ == "Dependency") := by
    rw [subMatches]
    apply List.filter_congr
    intro f _
    rw [hq]
    rw [show pyLower "" = "" from rfl, strContains_empty, Bool.true_and]
  have hsubne : countries.filter (fun f => !(f.type_ == "Dependency")) ≠ [] := by
    obtain ⟨f, hf, hdep⟩ := hnondep
    exact List.ne_nil_of_mem (List.mem_filter.mpr ⟨hf, by simpa using hdep⟩)
  refine ⟨hex, ?_⟩
  unfold resolve
  rw [if_pos (by simp [List.isEmpty_iff, hex]),
    if_neg (by simp [List.isEmpty_iff, hsubEq, hsubne]), hsubEq]

/-- Counterexample to C9 as stated: in a dataset whose sovereignty names are
all non-empty but whose only feature is a dependency, the empty query still
fails with `NotFoundError`, instead of returning the (empty) set of
non-dependency features. -/
theorem C9_counterexample :
    (∀ f ∈ onlyDependencyCountries, f.sovereignt ≠ "") ∧
    pyStrip "" = "" ∧
    resolve onlyDependencyCountries "" = .error (.notFound "") := by
  refine ⟨?_, rfl, rfl⟩
  decide

/-- Witness for C9 at a concrete dataset: the whitespace query `" "` returns
every non-dependency feature. -/
theorem C9_witness :
    resolve mixedCountries " " =
      .ok (mixedCountries.filter fun f => !(f.type_ == "Dependency")) := by
  have h := C9_whitespace_query mixedCountries " " rfl (by decide)
    ⟨⟨"France", "Sovereign country", none⟩, List.mem_cons_self _ _, by decide⟩
  exact h.2

theorem getD_map_of_lt {α β : Type} (f : α → β) (l : List α) (i : Nat)
    (h : i < l.length) (d : β) (d' : α) :
    (l.map f).getD i d = f (l.getD i d') := by
  rw [List.getD_eq_getElem _ d (by simpa using h), List.getD_eq_getElem _ d' h]
  exact List.getElem_map ..

theorem getD_zip_of_lt {α β : Type} (as : List α) (bs : List β) (i : Nat)
    (ha : i < as.length) (hb : i < bs.length) (da : α) (db : β) :
    (as.zip bs).getD i (da, db) = (as.getD i da, bs.getD i db) := by
  have hz : i < (as.zip bs).length := by
    rw [List.length_zip]
    omega
  rw [List.getD_eq_getElem _ _ hz, List.getD_eq_getElem _ da ha,
    List.getD_eq_getElem _ db hb]
  exact List.getElem_zip ..

theorem maxIsPos_true (xs : List ℚ) (m : ℚ) (h : seriesMax xs = some m)
    (hpos : 0 < m) : maxIsPos xs = true := by
  unfold maxIsPos
  rw [h]
  simpa using hpos

theorem maxIsPos_false (xs : List ℚ) (m : ℚ) (h : seriesMax xs = some m)
    (hle : m ≤ 0) : maxIsPos xs = false := by
  unfold maxIsPos
  rw [h]
  simpa using not_lt.mpr hle

/-- C3: with a positive maximum metric, `classify` divides every metric by
the maximum and buckets the normalized value with right-closed intervals,
`(-1, 0.33]` small, `(0.33, 0.66]` medium, `(0.66, 1]` large; the spec's
concrete scenario with upstream areas 10, 500, 1000 normalizes to
`[0.01, 0.5, 1]` and is classed small, medium, large. -/
theorem C3_normalized_classes (ds : RiverFrame) (m : ℚ)
    (hmax : seriesMax (dsMetrics ds) = some m) (hpos : 0 < m) :
    (∀ x : ℚ,
      ((-1 < x ∧ x ≤ 33/100) → pdCut x = some SizeCat.small) ∧
      ((33/100 < x ∧ x ≤ 66/100) → pdCut x = some SizeCat.medium) ∧
      ((66/100 < x ∧ x ≤ 1) → pdCut x = some SizeCat.large)) ∧
    classify ds = ds.features.zip (((dsMetrics ds).map fun x => x / m).map pdCut) ∧
    classify demoRivers =
      [(⟨some 10, 0⟩, some SizeCat.small), (⟨some 500, 0⟩, some SizeCat.medium),
        (⟨some 1000, 0⟩, some SizeCat.large)] ∧
    (dsMetrics demoRivers).map (fun x => x / 1000) = [1/100, 1/2, 1] := by
  refine ⟨?_, ?_, ?_, ?_⟩
  · intro x
    refine ⟨fun h => ?_, fun h => ?_, fun h => ?_⟩
    · rw [pdCut, if_pos h]
    · rw [pdCut, if_neg (by rintro ⟨_, hx⟩; linarith [h.1]), if_pos h]
    · rw [pdCut, if_neg (by rintro ⟨_, hx⟩; linarith [h.1]),
        if_neg (by rintro ⟨_, hx⟩; linarith [h.1]), if_pos h]
  · unfold classify classifyWith
    rw [maxIsPos_true _ m hmax hpos, if_pos rfl, hmax, Option.getD_some]
  · norm_num [classify, classifyWith, dsMetrics, riverMetric, seriesMax,
      maxIsPos, pdCut, demoRivers, List.zip]
  · norm_num [dsMetrics, riverMetric, demoRivers]

/-- Witness for C3: the spec's three-river scenario, obtained by applying
the theorem at `demoRivers` with maximum 1000. -/
theorem C3_witness :
    classify demoRivers =
      [(⟨some 10, 0⟩, some SizeCat.small), (⟨some 500, 0⟩, some SizeCat.medium),
        (⟨some 1000, 0⟩, some SizeCat.large)] :=
  (C3_normalized_classes demoRivers 1000
    (by norm_num [dsMetrics, riverMetric, seriesMax, demoRivers])
    (by norm_num)).2.2.1

/-- C5 (amended): when the maximum metric is at most zero, `classify` skips
normalization and buckets the raw metrics directly, and every feature whose
raw metric exceeds −1 (in particular every metric-0 feature) falls into the
lowest bucket `small`.  (The unamended "every feature" claim is refuted by
`C5_counterexample`: a raw metric of −5 falls outside every bucket and
receives no class at all.) -/
theorem C5_degenerate_max (ds : RiverFrame) (m : ℚ)
    (hmax : seriesMax (dsMetrics ds) = some m) (hle : m ≤ 0) :
    classify ds = ds.features.zip ((dsMetrics ds).map pdCut) ∧
    (∀ i, i < ds.features.length → -1 < (dsMetrics ds).getD i 0 →
      (classify ds).getD i (⟨none, 0⟩, none) =
        (ds.features.getD i ⟨none, 0⟩, some SizeCat.small)) := by
  have hraw : classify ds = ds.features.zip ((dsMetrics ds).map pdCut) := by
    unfold classify classifyWith
    rw [maxIsPos_false _ m hmax hle]
    rfl
  refine ⟨hraw, ?_⟩
  intro i hi hgt
  have hmlen : (dsMetrics ds).length = ds.features.length := by
    simp [dsMetrics]
  have hi' : i < (dsMetrics ds).length := by
    rw [hmlen]
    exact hi
  have hcut : pdCut ((dsMetrics ds).getD i 0) = some SizeCat.small := by
    have hmem : (dsMetrics ds).getD i 0 ∈ dsMetrics ds := getD_mem _ _ _ hi'
    have hlem := seriesMax_le _ _ _ hmax hmem
    rw [pdCut, if_pos ⟨hgt, by linarith⟩]
  rw [hraw, getD_zip_of_lt _ _ i hi (by simpa using hi'),
    getD_map_of_lt pdCut _ i hi' none 0, hcut]

/-- Counterexample to C5 as stated: on a dataset whose single metric is −5
the maximum is −5 ≤ 0 and the raw value is bucketed, but −5 lies outside
`(-1, 0.33]`, so the feature is NOT assigned the lowest bucket (it gets no
class at all). -/
theorem C5_counterexample :
    seriesMax (dsMetrics negRivers) = some (-5) ∧ (-5 : ℚ) ≤ 0 ∧
    classify negRivers = [(⟨some (-5), 0⟩, none)] ∧
    (classify negRivers).getD 0 (⟨none, 0⟩, none) ≠
      (⟨some (-5), 0⟩, some SizeCat.small) := by
  refine ⟨?_, by norm_num, ?_, ?_⟩
  · norm_num [dsMetrics, riverMetric, seriesMax, negRivers]
  · norm_num [classify, classifyWith, dsMetrics, riverMetric, seriesMax,
      maxIsPos, pdCut, negRivers, List.zip]
  · have h : classify negRivers = [(⟨some (-5), 0⟩, none)] := by
      norm_num [classify, classifyWith, dsMetrics, riverMetric, seriesMax,
        maxIsPos, pdCut, negRivers, List.zip]
    rw [h]
    simp

/-- Witness for C5: a dataset where every metric is 0 (one explicit 0, one
null filled with 0) has every feature classed `small`, obtained by applying
the theorem at `zeroRivers` with maximum 0. -/
theorem C5_witness :
    (classify zeroRivers).getD 0 (⟨none, 0⟩, none) =
      (⟨some 0, 0⟩, some SizeCat.small) ∧
    (classify zeroRivers).getD 1 (⟨none, 0⟩, none) =
      (⟨none, 5⟩, some SizeCat.small) := by
  have h := C5_degenerate_max zeroRivers 0
    (by norm_num [dsMetrics, riverMetric, seriesMax, zeroRivers]) le_rfl
  constructor
  · have := h.2 0 (by norm_num [zeroRivers])
      (by norm_num [dsMetrics, riverMetric, zeroRivers])
    simpa [zeroRivers] using this
  · have := h.2 1 (by norm_num [zeroRivers])
      (by norm_num [dsMetrics, riverMetric, zeroRivers])
    simpa [zeroRivers] using this

/-- C6: the size metric is chosen by schema: with the `UPLAND_SKM` column
present every feature's metric is that value with nulls coerced to 0, and
with the column absent it is the feature's planar geometry length. -/
theorem C6_metric_source (ds : RiverFrame) :
    (ds.hasUplandCol = true →
      classify ds =
        classifyWith (ds.features.map fun f => f.uplandSkm.getD 0) ds.features) ∧
    (ds.hasUplandCol = false →
      classify ds =
        classifyWith (ds.features.map fun f => f.geomLength) ds.features) := by
  constructor
  · intro h
    unfold classify dsMetrics riverMetric
    rw [h]
    simp
  · intro h
    unfold classify dsMetrics riverMetric
    rw [h]
    simp

/-- Witness for C6: a dataset carrying the `UPLAND_SKM` column is classified
from that column (nulls as 0). -/
theorem C6_witness :
    classify uplandRivers =
      classifyWith (uplandRivers.features.map fun f => f.uplandSkm.getD 0)
        uplandRivers.features :=
  (C6_metric_source uplandRivers).1 rfl

/-- C8: `classify` is a pure annotation pass: it returns the same features,
in the same order and with the same cardinality, only paired with their size
class. -/
theorem C8_preserves_features (ds : RiverFrame) :
    (classify ds).map Prod.fst = ds.features ∧
    (classify ds).length = ds.features.length := by
  by_cases h : maxIsPos (dsMetrics ds) = true
  · unfold classify classifyWith
    rw [if_pos h]
    exact ⟨List.map_fst_zip _ _ (by simp [dsMetrics]),
      by simp [dsMetrics, List.length_zip]⟩
  · unfold classify classifyWith
    rw [if_neg h]
    exact ⟨List.map_fst_zip _ _ (by simp [dsMetrics]),
      by simp [dsMetrics, List.length_zip]⟩

theorem yieldsNoParts_geomParts (g : Geom)
    (h : yieldsNoParts (some g) = true) : geomParts g = [] := by
  cases g with
  | polygon a t => cases h
  | lineString l t => cases h
  | multiPolygon ps =>
    cases ps with
    | nil => rfl
    | cons p ps => cases h
  | geometryCollection ps =>
    cases ps with
    | nil => rfl
    | cons p ps => cases h

theorem mainlandParts_polygon (reproj : Nat → Nat → Geom → Geom)
    (sel : CountryFrame)
    (hPoly : ∀ c c' g, polygonalCountryGeom g = true →
      polygonalCountryGeom (reproj c c' g) = true)
    (hGeo : ∀ f ∈ sel.features, optPolygonal f.geometry = true) :
    ∀ p ∈ mainlandParts reproj sel, isPolygonG p = true := by
  intro p hp
  obtain ⟨g, hg, hpg⟩ := mem_collectParts _ p hp
  rw [reprojGeoms, List.mem_map] at hg
  obtain ⟨og, hog, hmap⟩ := hg
  cases og with
  | none => cases hmap
  | some g0 =>
    have hg0 : reproj sel.crs 3857 g0 = g := by
      simpa using hmap
    rw [selGeometries, List.mem_map] at hog
    obtain ⟨f, hf, hfg⟩ := hog
    have h0 : polygonalCountryGeom g0 = true := by
      have hv := hGeo f hf
      rw [hfg] at hv
      simpa [optPolygonal] using hv
    have h1 : polygonalCountryGeom g = true := hg0 ▸ hPoly sel.crs 3857 g0 h0
    clear hg0 hmap hfg
    cases g with
    | polygon a t =>
      rw [geomParts_polygon] at hpg
      rcases List.mem_singleton.mp hpg with rfl
      rfl
    | lineString l t => simp [polygonalCountryGeom] at h1
    | multiPolygon ps =>
      rw [geomParts_multiPolygon] at hpg
      have hall : ps.all isPolygonG = true := by
        simpa [polygonalCountryGeom] using h1
      exact List.all_eq_true.mp hall p hpg
    | geometryCollection ps => simp [polygonalCountryGeom] at h1

theorem largestPartIdx_lt (reproj : Nat → Nat → Geom → Geom)
    (sel : CountryFrame) (hne : (mainlandParts reproj sel).length ≠ 0) :
    largestPartIdx reproj sel < (mainlandParts reproj sel).length := by
  have hmap : ((mainlandParts reproj sel).map Geom.area).length =
      (mainlandParts reproj sel).length := List.length_map _ _
  have h := argmaxIdx_lt_length ((mainlandParts reproj sel).map Geom.area)
    (by simp [List.map_eq_nil_iff, ← List.length_eq_zero]; omega)
  rw [hmap] at h
  exact h

/-- C1: whenever flattening the reprojected selection yields a polygon part,
`extract_mainland` takes the non-fallback branch and returns, reprojected
back to the original CRS, the part whose planar area (computed in the
projected CRS the parts live in) is maximal, with ties broken by
first-encountered order: every part's area is at most the chosen part's, and
every part strictly before the chosen index has strictly smaller area. -/
theorem C1_largest_part (reproj : Nat → Nat → Geom → Geom)
    (unaryUnion : List (Option Geom) → Geom) (sel : CountryFrame)
    (hpoly : ∃ g ∈ mainlandParts reproj sel, g.geomType = "Polygon") :
    largestPartIdx reproj sel < (mainlandParts reproj sel).length ∧
    (extract_mainland reproj unaryUnion sel).mask =
      reproj 3857 sel.crs (largestPart reproj sel) ∧
    (extract_mainland reproj unaryUnion sel).gdfCrs = sel.crs ∧
    (∀ j, j < (mainlandParts reproj sel).length →
      ((mainlandParts reproj sel).getD j (Geom.polygon 0 0)).area ≤
        (largestPart reproj sel).area) ∧
    (∀ j, j < largestPartIdx reproj sel →
      ((mainlandParts reproj sel).getD j (Geom.polygon 0 0)).area <
        (largestPart reproj sel).area) := by
  obtain ⟨g, hg, _⟩ := hpoly
  have hne : (mainlandParts reproj sel).length ≠ 0 := by
    have := List.ne_nil_of_mem hg
    simpa [← List.length_eq_zero] using this
  have hidx := largestPartIdx_lt reproj sel hne
  refine ⟨hidx, ?_, ?_, ?_, ?_⟩
  · unfold extract_mainland
    rw [if_neg hne]
  · unfold extract_mainland
    rw [if_neg hne]
  · intro j hj
    have h1 := getD_le_argmax ((mainlandParts reproj sel).map Geom.area) j
      (by simpa using hj)
    rw [getD_map_area _ j hj] at h1
    unfold largestPart largestPartIdx
    rw [← getD_map_area _ _ (show argmaxIdx ((mainlandParts reproj sel).map Geom.area) <
      (mainlandParts reproj sel).length from hidx)]
    exact h1
  · intro j hj
    have h2 := getD_lt_of_lt_argmax ((mainlandParts reproj sel).map Geom.area)
      j hj
    rw [getD_map_area _ j (lt_trans hj hidx)] at h2
    unfold largestPart largestPartIdx
    rw [← getD_map_area _ _ (show argmaxIdx ((mainlandParts reproj sel).map Geom.area) <
      (mainlandParts reproj sel).length from hidx)]
    exact h2

/-- Witness for C1: on a selection with parts of areas 5, 9, 9, the mask is
the reprojection of the FIRST area-9 part (tag 2, not tag 3). -/
theorem C1_witness :
    (∃ g ∈ mainlandParts idReproj tieFrame, g.geomType = "Polygon") ∧
    (extract_mainland idReproj collectionUnion tieFrame).mask =
      idReproj 3857 tieFrame.crs (largestPart idReproj tieFrame) ∧
    largestPart idReproj tieFrame = Geom.polygon 9 2 := by
  have hparts : mainlandParts idReproj tieFrame =
      [Geom.polygon 5 1, Geom.polygon 9 2, Geom.polygon 9 3] := rfl
  have hp : ∃ g ∈ mainlandParts idReproj tieFrame, g.geomType = "Polygon" := by
    refine ⟨Geom.polygon 5 1, ?_, rfl⟩
    rw [hparts]
    exact List.mem_cons_self _ _
  have hidx : largestPartIdx idReproj tieFrame = 1 := by
    rw [largestPartIdx, hparts]
    norm_num [argmaxIdx, Geom.area, List.getD]
  refine ⟨hp, (C1_largest_part idReproj collectionUnion tieFrame hp).2.1, ?_⟩
  rw [largestPart, hidx, hparts]
  rfl

/-- C4 (amended): when flattening yields at least one part, the selection's
geometries are polygons or multi-polygons of polygons, and the abstract CRS
transformation preserves geometry types and polygonality, the output of
`extract_mainland` is a single-feature, single-polygon result carried in the
original CRS.  (The unamended claim also asserted this on the fallback
branch, which `C4_counterexample` refutes: there the result is the original,
possibly multi-feature, selection.) -/
theorem C4_single_polygon (reproj : Nat → Nat → Geom → Geom)
    (unaryUnion : List (Option Geom) → Geom) (sel : CountryFrame)
    (hTy : ∀ c c' g, (reproj c c' g).geomType = g.geomType)
    (hPoly : ∀ c c' g, polygonalCountryGeom g = true →
      polygonalCountryGeom (reproj c c' g) = true)
    (hGeo : ∀ f ∈ sel.features, optPolygonal f.geometry = true)
    (hne : (mainlandParts reproj sel).length ≠ 0) :
    (extract_mainland reproj unaryUnion sel).gdfGeoms.length = 1 ∧
    (∀ og ∈ (extract_mainland reproj unaryUnion sel).gdfGeoms,
      optIsPolygon og = true) ∧
    isPolygonG (extract_mainland reproj unaryUnion sel).mask = true ∧
    (extract_mainland reproj unaryUnion sel).gdfCrs = sel.crs := by
  have hidx := largestPartIdx_lt reproj sel hne
  have hlp : isPolygonG (largestPart reproj sel) = true :=
    mainlandParts_polygon reproj sel hPoly hGeo _ (getD_mem _ _ _ hidx)
  have hmask : isPolygonG (reproj 3857 sel.crs (largestPart reproj sel)) = true := by
    simp only [isPolygonG, hTy] at hlp ⊢
    exact hlp
  unfold extract_mainland
  rw [if_neg hne]
  refine ⟨rfl, ?_, hmask, rfl⟩
  intro og hog
  rcases List.mem_singleton.mp hog with rfl
  simpa [optIsPolygon] using hmask

/-- Counterexample to C4 as stated: a non-empty two-feature selection whose
geometries are (empty) multi-polygons takes the fallback branch, and the
output region is the original two-feature selection — neither single-feature
nor polygonal. -/
theorem C4_counterexample :
    allEmptyPairFrame.features.length = 2 ∧
    (extract_mainland idReproj collectionUnion allEmptyPairFrame).gdfGeoms =
      [some (Geom.multiPolygon []), some (Geom.multiPolygon [])] ∧
    ¬((extract_mainland idReproj collectionUnion allEmptyPairFrame).gdfGeoms.length = 1 ∧
      ∀ og ∈ (extract_mainland idReproj collectionUnion allEmptyPairFrame).gdfGeoms,
        optIsPolygon og = true) := by
  refine ⟨rfl, rfl, ?_⟩
  rintro ⟨h1, _⟩
  have h2 : (extract_mainland idReproj collectionUnion allEmptyPairFrame).gdfGeoms.length = 2 :=
    rfl
  omega

/-- Witness for C4: a selection holding a polygon and a multi-polygon of
polygons, under the identity transformation, yields a single polygon
feature in the original CRS. -/
theorem C4_witness :
    (extract_mainland idReproj collectionUnion polyPairFrame).gdfGeoms.length = 1 ∧
    (∀ og ∈ (extract_mainland idReproj collectionUnion polyPairFrame).gdfGeoms,
      optIsPolygon og = true) ∧
    isPolygonG (extract_mainland idReproj collectionUnion polyPairFrame).mask = true ∧
    (extract_mainland idReproj collectionUnion polyPairFrame).gdfCrs =
      polyPairFrame.crs :=
  C4_single_polygon idReproj collectionUnion polyPairFrame
    (fun _ _ _ => rfl) (fun _ _ _ h => h) (by decide) (by decide)

/-- C7: when every geometry of the selection is null or empty (so flattening
yields no parts) and the CRS transformation preserves null-or-emptiness,
`extract_mainland` does not fail: it falls back to the union of the original
un-reprojected selection as the mask and to the original selection geometry
(with its CRS) as the mainland region. -/
theorem C7_all_empty_fallback (reproj : Nat → Nat → Geom → Geom)
    (unaryUnion : List (Option Geom) → Geom) (sel : CountryFrame)
    (hre : ∀ c c' g, yieldsNoParts (some g) = true →
      yieldsNoParts (some (reproj c c' g)) = true)
    (hall : ∀ og ∈ selGeometries sel, yieldsNoParts og = true) :
    extract_mainland reproj unaryUnion sel =
      { mask := unaryUnion (selGeometries sel)
        gdfCrs := sel.crs
        gdfGeoms := selGeometries sel } := by
  have hparts : mainlandParts reproj sel = [] := by
    rw [mainlandParts]
    apply (collectParts_eq_nil_iff _).mpr
    intro og hog g hg
    rw [reprojGeoms, List.mem_map] at hog
    obtain ⟨og0, hog0, hmap⟩ := hog
    cases og0 with
    | none =>
      rw [← hmap] at hg
      cases hg
    | some g0 =>
      have h1 : yieldsNoParts (some (reproj sel.crs 3857 g0)) = true :=
        hre _ _ _ (hall _ hog0)
      have hgg : g = reproj sel.crs 3857 g0 := by
        rw [← hmap] at hg
        simpa using hg.symm
      exact hgg ▸ yieldsNoParts_geomParts _ h1
  unfold extract_mainland
  rw [if_pos (by rw [hparts]; rfl)]

/-- Witness for C7: a selection holding a null geometry, an empty
multi-polygon and an empty geometry collection degrades to the fallback. -/
theorem C7_witness :
    extract_mainland idReproj collectionUnion allNullFrame =
      { mask := collectionUnion (selGeometries allNullFrame)
        gdfCrs := allNullFrame.crs
        gdfGeoms := selGeometries allNullFrame } :=
  C7_all_empty_fallback idReproj collectionUnion allNullFrame
    (fun _ _ _ h => h) (by decide)

/-- C10: on a selection mixing null and non-null geometries, the null
geometries are skipped during decomposition (filtering them away changes
nothing), a null geometry is never selected as the mainland (the chosen part
comes from some non-null geometry and the output feature is non-null), and
the fallback branch is taken exactly when every geometry is null or
contributes no parts. -/
theorem C10_null_handling (reproj : Nat → Nat → Geom → Geom)
    (unaryUnion : List (Option Geom) → Geom) (sel : CountryFrame)
    (_hnull : ∃ f ∈ sel.features, f.geometry.isNone = true)
    (_hsome : ∃ f ∈ sel.features, f.geometry.isSome = true) :
    mainlandParts reproj sel =
      collectParts ((reprojGeoms reproj sel).filter fun og => og.isSome) ∧
    ((mainlandParts reproj sel).length ≠ 0 →
      (extract_mainland reproj unaryUnion sel).gdfGeoms =
        [some (reproj 3857 sel.crs (largestPart reproj sel))] ∧
      ∃ g, some g ∈ reprojGeoms reproj sel ∧
        largestPart reproj sel ∈ geomParts g) ∧
    ((mainlandParts reproj sel).length = 0 ↔
      ∀ og ∈ reprojGeoms reproj sel, ∀ g, og = some g → geomParts g = []) := by
  refine ⟨(collectParts_filter_isSome _).symm, ?_, ?_⟩
  · intro hne
    have hidx := largestPartIdx_lt reproj sel hne
    constructor
    · unfold extract_mainland
      rw [if_neg hne]
    · exact mem_collectParts _ _ (getD_mem _ _ _ hidx)
  · rw [mainlandParts, List.length_eq_zero]
    exact collectParts_eq_nil_iff _

/-- Witness for C10: a selection with one null geometry and one polygon:
decomposition skips the null, the polygon becomes the mainland, and the
output feature is non-null. -/
theorem C10_witness :
    mainlandParts idReproj mixedNullFrame =
      collectParts ((reprojGeoms idReproj mixedNullFrame).filter fun og => og.isSome) ∧
    (extract_mainland idReproj collectionUnion mixedNullFrame).gdfGeoms =
      [some (idReproj 3857 mixedNullFrame.crs (largestPart idReproj mixedNullFrame))] := by
  have h := C10_null_handling idReproj collectionUnion mixedNullFrame
    (by decide) (by decide)
  exact ⟨h.1, (h.2.1 (by decide)).1⟩

end RiverMap
